import Mathlib

/-!
Verification development for the pdf-renamer repository (src/renamer.py).

The development shallowly embeds the core of renamer.py:
* the undo journal (log_rename, undo_single, undo_session),
* the rename executor with collision avoidance (execute_renames),
* the metadata resolution waterfall (resolve_metadata) over abstract
  provider outcomes (network calls return Option: none models both
  "no match" and a transport failure, which the code coalesces via
  try/except returning None),
* the CrossRef title search confidence computation (crossref_search_title
  and _parse_crossref_item) over parsed response items,
* the ISBN_PATTERN regex search over extracted text,
* filename sanitization (_sanitize_filename), with Unicode NFKD
  normalization modelled on a tabulated subset of the Unicode data
  (combining classes of U+0301 and U+0323; the characters appearing in
  this development have no NFKD decompositions).

Filesystems are modelled as finite lists of paths (the set of existing
files); a path is a (directory, file name) pair, mirroring pathlib's
`parent / name` structure used by the code.  Machine A floats appear only
as the confidence score; the code only ever compares and stores exact
decimal values, which are modelled as rationals.
-/

namespace PdfRenamer

/-- Python truthiness of an optional string value: None and the empty
string are falsy.  Used for the `if info[...]:` guards in renamer.py. -/
def pyTruthy : Option String → Bool
  | none => false
  | some s => s ≠ ""

/-- Whitespace characters recognised by the model (the ASCII portion of
Python's str.strip / regex \s character class). -/
def isSpaceChar (c : Char) : Bool :=
  c = ' ' ∨ c = '\t' ∨ c = '\n' ∨ c = '\r' ∨ c = '\x0b' ∨ c = '\x0c'

/-- ASCII decimal digit test (regex \d in renamer.py's patterns). -/
def isDigitChar (c : Char) : Bool :=
  '0' ≤ c ∧ c ≤ '9'

/-- Lower-casing used by the model (ASCII case mapping, matching
Python str.lower on the inputs considered in this development). -/
def pyLower (s : String) : String :=
  String.mk (s.data.map Char.toLower)

/-- Accumulating pass of pySplitWs over the character list; the
accumulator holds the current word reversed. -/
def pySplitWsAux : List Char → List Char → List String
  | [], acc => if acc = [] then [] else [String.mk acc.reverse]
  | c :: cs, acc =>
    if isSpaceChar c then
      if acc = [] then pySplitWsAux cs []
      else String.mk acc.reverse :: pySplitWsAux cs []
    else pySplitWsAux cs (c :: acc)

/-- Python str.split() with no argument: split on whitespace runs and
drop empty pieces. -/
def pySplitWs (s : String) : List String :=
  pySplitWsAux s.data []

/-- Python str.strip(", "): remove any leading/trailing commas and
spaces (used by _parse_crossref_item for author names). -/
def pyStripCommaSpace (s : String) : String :=
  let core := ((s.data.dropWhile (fun c => c = ',' ∨ c = ' ')).reverse.dropWhile
    (fun c => c = ',' ∨ c = ' ')).reverse
  String.mk core

/-- Path model: renamer.py always builds target paths as
`original.parent / new_name`, so a path is a directory plus a file name.
Equality is pathlib's componentwise comparison. -/
structure PathM where
  dir : String
  name : String
deriving DecidableEq, Repr

/-- Metadata record as produced by the provider clients and the
waterfall (the normalized dicts of renamer.py).  The doi field is an
Option because the manual-review branch stores `info["doi"]`, which can
be Python None, while providers store strings. -/
structure Metadata where
  title : String := ""
  authors : List String := []
  year : String := ""
  journal : String := ""
  publisher : String := ""
  doi : Option String := none
  isbn : Option String := none
  source : String := ""
  confidence : ℚ := 0
  zotero_key : Option String := none
deriving DecidableEq, Repr

/-- Journal entry appended by log_rename (renamer.py lines 84-95).
The timestamp is opaque to all journal logic and is modelled as a
string field. -/
structure LogEntry where
  original_path : PathM
  new_path : PathM
  timestamp : String := ""
  metadata_source : String := "unknown"
  session_id : String := ""
  metadata : Option Metadata := none
  undone : Bool := false
deriving DecidableEq, Repr

/-- World state threaded through the executor and the undo journal:
the set of existing files (fs) and the persisted rename log
(the contents of rename_log.json). -/
structure World where
  fs : List PathM
  log : List LogEntry
deriving DecidableEq, Repr

/-- Outcome of undo_single, mirroring the result dicts of renamer.py
lines 102-118. -/
inductive UndoResult where
  | invalidIndex
  | alreadyUndone
  | targetMissing (p : PathM)
  | sourceOccupied (p : PathM)
  | success (restored : PathM)
deriving DecidableEq, Repr

/-- Model of shutil.move restricted to file paths: the source stops
existing and the destination exists (without duplicating a path that is
already present). -/
def moveFile (fs : List PathM) (src dst : PathM) : List PathM :=
  let fs1 := fs.erase src
  if dst ∈ fs1 then fs1 else fs1 ++ [dst]

/-- Model of undo_single (renamer.py lines 102-118).  The index is an
integer because the HTTP layer passes int(index), which may be
negative; the code checks `index < 0 or index >= len(entries)`.
The inner none branch is unreachable (the bounds were just checked)
and mirrors the in-bounds list access of the code. -/
def undo_single (w : World) (index : Int) : World × UndoResult :=
  if index < 0 ∨ (w.log.length : Int) ≤ index then (w, .invalidIndex)
  else
    match w.log[index.toNat]? with
    | none => (w, .invalidIndex)
    | some entry =>
      if entry.undone then (w, .alreadyUndone)
      else if entry.new_path ∉ w.fs then (w, .targetMissing entry.new_path)
      else if entry.original_path ∈ w.fs then (w, .sourceOccupied entry.original_path)
      else
        ({ fs := moveFile w.fs entry.new_path entry.original_path,
           log := w.log.set index.toNat { entry with undone := true } },
         .success entry.original_path)

/-- Session-undo loop body (renamer.py lines 121-130).  Python's for
loop iterates over the snapshot `enumerate(entries)` captured before the
loop: the reassignment `entries = _load_log()` inside the body does not
affect the iterator, so the guard always reads the initial snapshot,
while undo_single itself re-reads the live journal. -/
def undoSessionGo (sid : String) : List (Nat × LogEntry) → World → List UndoResult →
    World × List UndoResult
  | [], w, acc => (w, acc)
  | ie :: rest, w, acc =>
    if ie.2.session_id = sid ∧ ie.2.undone = false then
      let wr := undo_single w (ie.1 : Int)
      undoSessionGo sid rest wr.1 (acc ++ [wr.2])
    else undoSessionGo sid rest w acc

/-- Model of undo_session (renamer.py lines 121-130). -/
def undo_session (w : World) (sid : String) : World × List UndoResult :=
  undoSessionGo sid w.log.enum w []

/-- Decimal digit character for a value below ten. -/
def digitChar (d : Nat) : Char :=
  if d = 0 then '0' else if d = 1 then '1' else if d = 2 then '2'
  else if d = 3 then '3' else if d = 4 then '4' else if d = 5 then '5'
  else if d = 6 then '6' else if d = 7 then '7' else if d = 8 then '8' else '9'

/-- Numeric value of a decimal digit character. -/
def digitVal (c : Char) : Nat :=
  c.toNat - 48

/-- Fueled decimal digit expansion; the fuel only bounds the recursion
depth and any fuel above the digit count yields the digits of n, most
significant first. -/
def decDigitsCore (fuel : Nat) (n : Nat) : List Char :=
  match fuel with
  | 0 => []
  | f + 1 =>
    if n < 10 then [digitChar n]
    else decDigitsCore f (n / 10) ++ [digitChar (n % 10)]

/-- Decimal digit list of a natural number, most significant first
(the digits of Python's str(n)). -/
def decDigits (n : Nat) : List Char :=
  decDigitsCore (n + 1) n

/-- Python str(n) for a natural number. -/
def decRepr (n : Nat) : String :=
  String.mk (decDigits n)

/-- Left fold reading a decimal digit list back into a number. -/
def decValL (l : List Char) : Nat :=
  l.foldl (fun a c => 10 * a + digitVal c) 0

/-- Candidate file name built by the collision loop of execute_renames
(renamer.py line 670): stem, space, parenthesised counter, suffix. -/
def candName (stem sfx : String) (k : Nat) : String :=
  stem ++ " (" ++ decRepr k ++ ")" ++ sfx

/-- Index of the last occurrence of a dot in a character list. -/
def lastDotIdx (l : List Char) : Option Nat :=
  match l.reverse.findIdx? (fun c => c = '.') with
  | some j => some (l.length - 1 - j)
  | none => none

/-- Pathlib's PurePath.stem of a file name: everything before the last
dot, provided that dot is neither the first nor the last character. -/
def stemOf (name : String) : String :=
  match lastDotIdx name.data with
  | some i => if 0 < i ∧ i < name.data.length - 1 then String.mk (name.data.take i) else name
  | none => name

/-- Pathlib's PurePath.suffix of a file name (the extension including
the dot, or the empty string). -/
def suffixOf (name : String) : String :=
  match lastDotIdx name.data with
  | some i => if 0 < i ∧ i < name.data.length - 1 then String.mk (name.data.drop i) else ""
  | none => ""

/-- os.path.basename for a POSIX path string. -/
def basenameOf (p : String) : String :=
  String.mk ((p.data.reverse.takeWhile (fun c => c ≠ '/')).reverse)

/-- os.path.splitext applied to a base name, keeping the root: the part
before the last dot, unless every character before that dot is itself a
dot (so ".hidden" keeps its name, as in CPython). -/
def splitextStem (name : String) : String :=
  match lastDotIdx name.data with
  | some i =>
    if (name.data.take i).all (fun c => c = '.') then name
    else String.mk (name.data.take i)
  | none => name

/-- Collision loop of execute_renames (renamer.py lines 664-671): try
"stem (k)suffix", "stem (k+1)suffix", ... until a free name is found.
The Python while loop is unbounded; the model bounds it by a fuel that
is always sufficient (fs is finite and the candidate names are pairwise
distinct), which is proved below. -/
def firstFreeFrom (fs : List PathM) (dir stem sfx : String) : Nat → Nat → PathM
  | 0, k => ⟨dir, candName stem sfx k⟩
  | fuel + 1, k =>
    if (⟨dir, candName stem sfx k⟩ : PathM) ∈ fs then firstFreeFrom fs dir stem sfx fuel (k + 1)
    else ⟨dir, candName stem sfx k⟩

/-- Target-path selection of execute_renames (renamer.py lines 658-671):
the proposed name in the original's directory, disambiguated with a
numeric counter when it collides with an existing file other than the
original. -/
def resolveTarget (fs : List PathM) (original : PathM) (new_name : String) : PathM :=
  let np : PathM := ⟨original.dir, new_name⟩
  if np ∈ fs ∧ np ≠ original then
    firstFreeFrom fs original.dir (stemOf new_name) (suffixOf new_name) (fs.length + 1) 1
  else np

/-- Settings fields consulted by the executor (load_settings). -/
structure SettingsM where
  zotero_api_key : String := ""
deriving DecidableEq, Repr

/-- Batch item passed to execute_renames: the dict with original_path
and (optionally) new_name / proposed_name / source / metadata keys. -/
structure RenameItem where
  original_path : PathM
  new_name : Option String := none
  proposed_name : Option String := none
  source : Option String := none
  metadata : Option Metadata := none
deriving DecidableEq, Repr

/-- Per-item outcome of execute_renames.  The shutil.move exception
branch (renamer.py lines 686-687) is unreachable in the model, where the
move of an existing file always succeeds. -/
inductive RenameResult where
  | notFound (original : PathM)
  | ok (original : PathM) (new_path : PathM) (zotero_updated : Option Bool)
deriving DecidableEq, Repr

/-- Name resolution of renamer.py line 657:
f.get("new_name", f.get("proposed_name", original.name)). -/
def effectiveNewName (f : RenameItem) : String :=
  f.new_name.getD (f.proposed_name.getD f.original_path.name)

/-- One iteration of the execute_renames batch loop (renamer.py lines
655-687).  zsync models zotero_update_attachment, taking the zotero key
and the pre-collision new_name exactly as the code passes them. -/
def executeOne (st : SettingsM) (zsync : String → String → Bool) (sid : String)
    (w : World) (f : RenameItem) : World × RenameResult :=
  let original := f.original_path
  let nm := effectiveNewName f
  if original ∈ w.fs then
    let target := resolveTarget w.fs original nm
    let entry : LogEntry :=
      { original_path := original, new_path := target, timestamp := "",
        metadata_source := f.source.getD "unknown", session_id := sid,
        metadata := f.metadata, undone := false }
    let zu : Option Bool :=
      match f.metadata.bind (fun m => m.zotero_key) with
      | some key =>
        if key ≠ "" ∧ st.zotero_api_key ≠ "" then some (zsync key nm) else none
      | none => none
    ({ fs := moveFile w.fs original target, log := w.log ++ [entry] }, .ok original target zu)
  else (w, .notFound original)

/-- Model of execute_renames (renamer.py lines 642-689).  The session id
is a parameter (the code defaults it to a UTC timestamp string when
absent). -/
def execute_renames (st : SettingsM) (zsync : String → String → Bool)
    (w : World) (files : List RenameItem) (sid : String) : World × List RenameResult :=
  files.foldl
    (fun acc f =>
      let wr := executeOne st zsync sid acc.1 f
      (wr.1, acc.2 ++ [wr.2]))
    (w, [])

/-- Separator characters of the ISBN pattern's [-\s] classes. -/
def isSepChar (c : Char) : Bool :=
  c = '-' ∨ isSpaceChar c

/-- Matcher for the regex tail [\dXx]: one digit or check character.
Returns the remaining input on success. -/
def matchFinal : List Char → Option (List Char)
  | c :: cs => if isDigitChar c ∨ c = 'X' ∨ c = 'x' then some cs else none
  | [] => none

/-- Backtracking matcher for n repetitions of the regex piece
(?:\d[-\s]?): a digit with an optional, greedily taken separator; on
failure of the continuation k after taking the separator, the match is
retried without it, as a backtracking regex engine does. -/
def matchReps (k : List Char → Option (List Char)) : Nat → List Char → Option (List Char)
  | 0, cs => k cs
  | _ + 1, [] => none
  | n + 1, c :: cs =>
    if isDigitChar c then
      match cs with
      | d :: rest =>
        if isSepChar d then
          match matchReps k n rest with
          | some out => some out
          | none => matchReps k n cs
        else matchReps k n cs
      | [] => matchReps k n []
    else none

/-- Matcher for the captured group of ISBN_PATTERN (renamer.py lines
40-42): (?:97[89][-\s]?)?(?:\d[-\s]?){9}[\dXx].  The optional 97[89]
prefix is tried greedily first (with and without its separator) and the
match falls back to reading those digits as part of the nine-digit run,
as the regex engine's backtracking does. -/
def matchGroup (cs : List Char) : Option (List Char) :=
  let core := fun xs => matchReps matchFinal 9 xs
  let withPfx : Option (List Char) :=
    match cs with
    | c1 :: c2 :: c3 :: rest =>
      if c1 = '9' ∧ c2 = '7' ∧ (c3 = '8' ∨ c3 = '9') then
        match rest with
        | d :: rest2 =>
          if isSepChar d then
            match core rest2 with
            | some out => some out
            | none => core rest
          else core rest
        | [] => core []
      else none
    | _ => none
  match withPfx with
  | some out => some out
  | none => core cs

/-- Attempt to match ISBN_PATTERN at the start of the input, returning
the captured group's characters.  The label ISBN (case-insensitive,
matching re.IGNORECASE) is mandatory in the pattern; it may be followed
by one of [-:] and then \s*.  The \s* is taken maximally, which is
equivalent to the regex's backtracking here because the captured group
always starts with a digit, never a space. -/
def matchISBNAt (cs : List Char) : Option (List Char) :=
  match cs with
  | c1 :: c2 :: c3 :: c4 :: rest =>
    if c1.toLower = 'i' ∧ c2.toLower = 's' ∧ c3.toLower = 'b' ∧ c4.toLower = 'n' then
      let tryGroup := fun (xs : List Char) =>
        let ys := xs.dropWhile isSpaceChar
        match matchGroup ys with
        | some remain => some (ys.take (ys.length - remain.length))
        | none => none
      match rest with
      | e :: rest2 =>
        if e = '-' ∨ e = ':' then
          match tryGroup rest2 with
          | some g => some g
          | none => tryGroup rest
        else tryGroup rest
      | [] => tryGroup []
    else none
  | _ => none

/-- re.search over the text: try each start position from the left. -/
def searchISBN : List Char → Option (List Char)
  | [] => none
  | c :: cs =>
    match matchISBNAt (c :: cs) with
    | some g => some g
    | none => searchISBN cs

/-- ISBN extraction of extract_pdf_info (renamer.py lines 188-191):
ISBN_PATTERN.search over the text, with hyphens and whitespace stripped
from the captured group by re.sub. -/
def extract_isbn (text : String) : Option String :=
  (searchISBN text.data).map
    (fun g => String.mk (g.filter (fun c => !(c == '-' || isSepChar c))))

/-- Python str(i) for an integer. -/
def decReprInt (i : Int) : String :=
  match i with
  | .ofNat n => decRepr n
  | .negSucc n => "-" ++ decRepr (n + 1)

/-- Author object inside a CrossRef work item. -/
structure CRAuthor where
  family : String := ""
  given : String := ""
deriving DecidableEq, Repr

/-- Fields of a CrossRef work item read by _parse_crossref_item
(renamer.py lines 258-295).  The date fields hold the date-parts value,
with the same default the code supplies for a missing key. -/
structure CRItem where
  author : List CRAuthor := []
  title : List String := []
  publishedPrint : List (List Int) := [[]]
  publishedOnline : List (List Int) := [[]]
  created : List (List Int) := [[]]
  shortContainerTitle : List String := []
  containerTitle : List String := []
  publisher : String := ""
  DOI : String := ""
deriving DecidableEq, Repr

/-- Model of _parse_crossref_item (renamer.py lines 258-295). -/
def parseCrossrefItem (item : CRItem) : Metadata :=
  let authors := item.author.filterMap
    (fun a => if a.family ≠ "" then some (pyStripCommaSpace (a.family ++ ", " ++ a.given)) else none)
  let title := item.title.head?.getD ""
  let dp0 := item.publishedPrint
  let dp1 := if dp0 = [] ∨ (dp0.head?.getD []) = [] then item.publishedOnline else dp0
  let dp2 := if dp1 = [] ∨ (dp1.head?.getD []) = [] then item.created else dp1
  let year := match dp2.head? with
    | some (y :: _) => decReprInt y
    | _ => ""
  let journalList := if item.shortContainerTitle = [] then item.containerTitle
    else item.shortContainerTitle
  { title := title, authors := authors, year := year,
    journal := journalList.head?.getD "", publisher := item.publisher,
    doi := some item.DOI, source := "crossref", confidence := 1 }

/-- Round half to even, Python's rounding mode for round(). -/
def roundHalfEven (q : ℚ) : ℤ :=
  let f := ⌊q⌋
  let r := q - f
  if r < 1 / 2 then f
  else if 1 / 2 < r then f + 1
  else if f % 2 = 0 then f else f + 1

/-- Python round(x, 2) on the exact value: the nearest multiple of
1/100, ties to even. -/
def round2 (q : ℚ) : ℚ :=
  (roundHalfEven (100 * q) : ℚ) / 100

/-- Model of crossref_search_title (renamer.py lines 227-255) applied to
the parsed items of the HTTP response (an empty list models both "no
items" and any transport failure, which the code coalesces to None).
The top item is parsed and, when both titles are nonempty and the query
has at least one word, the confidence is replaced by the rounded
word-overlap ratio. -/
def crossref_search_title (title : String) (items : List CRItem) : Option Metadata :=
  match items with
  | [] => none
  | best :: _ =>
    let result := parseCrossrefItem best
    let result_title := pyLower result.title
    let query_title := pyLower title
    if result_title ≠ "" ∧ query_title ≠ "" then
      let words_q := (pySplitWs query_title).dedup
      let words_r := (pySplitWs result_title).dedup
      if words_q ≠ [] then
        let overlap : ℚ := ((words_q.filter (fun word => word ∈ words_r)).length : ℚ) / (words_q.length : ℚ)
        some { result with confidence := round2 overlap }
      else some result
    else some result

/-- Identifier bundle produced by extract_pdf_info for one document:
the doi / isbn / title_guess fields, each possibly Python None. -/
structure ExtractedInfo where
  doi : Option String := none
  isbn : Option String := none
  title_guess : Option String := none
deriving DecidableEq, Repr

/-- Provider outcomes available to the waterfall for one document.
Each function models one provider client; none covers both "no match"
and a transport failure or timeout, which the clients coalesce via
try/except returning None. -/
structure ProviderEnv where
  crossrefDoi : String → Option Metadata
  isbnLookup : String → Option Metadata
  crossrefTitle : String → Option Metadata
  semanticScholar : String → Option Metadata
  zotero : String → Option Metadata

/-- Python truthiness of the title variable in resolve_metadata: the
title guess when it is a nonempty string. -/
def effTitle (info : ExtractedInfo) : Option String :=
  match info.title_guess with
  | some t => if t = "" then none else some t
  | none => none

/-- Step 1 of the waterfall (renamer.py lines 501-506): DOI lookup via
CrossRef, confidence forced to 1.0 on success. -/
def doiStep (env : ProviderEnv) (info : ExtractedInfo) : Option Metadata :=
  match info.doi with
  | some d =>
    if d = "" then none
    else (env.crossrefDoi d).map (fun m => { m with confidence := 1 })
  | none => none

/-- Step 2 of the waterfall (renamer.py lines 508-512): ISBN lookup. -/
def isbnStep (env : ProviderEnv) (info : ExtractedInfo) : Option Metadata :=
  match info.isbn with
  | some i => if i = "" then none else env.isbnLookup i
  | none => none

/-- Step 3 of the waterfall (renamer.py lines 516-520): CrossRef title
search, accepted only when the confidence reaches 0.5. -/
def titleStep (env : ProviderEnv) (info : ExtractedInfo) : Option Metadata :=
  match effTitle info with
  | some t =>
    match env.crossrefTitle t with
    | some m => if 1 / 2 ≤ m.confidence then some m else none
    | none => none
  | none => none

/-- Step 4 of the waterfall (renamer.py lines 522-526): Semantic Scholar
search. -/
def semStep (env : ProviderEnv) (info : ExtractedInfo) : Option Metadata :=
  (effTitle info).bind env.semanticScholar

/-- Step 5 of the waterfall (renamer.py lines 528-532): Zotero search. -/
def zotStep (env : ProviderEnv) (info : ExtractedInfo) : Option Metadata :=
  (effTitle info).bind env.zotero

/-- Manual-review record synthesized when every step failed (renamer.py
lines 534-544).  Note the doi field receives info["doi"], not an empty
string. -/
def manualRecord (info : ExtractedInfo) (pdf_path : String) : Metadata :=
  { title := (effTitle info).getD (splitextStem (basenameOf pdf_path)),
    authors := [], year := "", journal := "", publisher := "",
    doi := info.doi, isbn := none, source := "manual_review",
    confidence := 0, zotero_key := none }

/-- Model of resolve_metadata (renamer.py lines 496-544): the waterfall
over the extracted identifiers and the provider outcomes. -/
def resolve_metadata (env : ProviderEnv) (info : ExtractedInfo) (pdf_path : String) : Metadata :=
  match doiStep env info with
  | some m => m
  | none =>
    match isbnStep env info with
    | some m => m
    | none =>
      match titleStep env info with
      | some m => m
      | none =>
        match semStep env info with
        | some m => m
        | none =>
          match zotStep env info with
          | some m => m
          | none => manualRecord info pdf_path

/-- Predicate: every waterfall step yielded no usable result. -/
def allStepsExhausted (env : ProviderEnv) (info : ExtractedInfo) : Prop :=
  doiStep env info = none ∧ isbnStep env info = none ∧ titleStep env info = none ∧
    semStep env info = none ∧ zotStep env info = none

/-- Unicode canonical combining class, tabulated for the characters
used in this development (U+0301 COMBINING ACUTE ACCENT and U+0323
COMBINING DOT BELOW; every other character appearing here has class
zero). -/
def ccc (c : Char) : Nat :=
  if c = '́' then 230 else if c = '̣' then 220 else 0

/-- Insert a combining character into an already canonically ordered
tail: it moves right past combining marks of strictly smaller class and
stops at a starter or at a mark of its own or larger class (the Unicode
canonical reordering step, stable for equal classes). -/
def insertMark (c : Char) : List Char → List Char
  | d :: ds => if 0 < ccc d ∧ ccc d < ccc c then d :: insertMark c ds else c :: d :: ds
  | [] => [c]

/-- Unicode canonical ordering of combining marks. -/
def canonicalOrder : List Char → List Char
  | [] => []
  | c :: cs => if ccc c = 0 then c :: canonicalOrder cs else insertMark c (canonicalOrder cs)

/-- NFKD normalization on the modelled character subset: the characters
used in this development have no compatibility decompositions, so the
normalization reduces to canonical reordering of combining marks. -/
def nfkdModel (s : String) : String :=
  String.mk (canonicalOrder s.data)

/-- Characters removed by _sanitize_filename's character class
(renamer.py line 556). -/
def isIllegalChar (c : Char) : Bool :=
  c = '<' ∨ c = '>' ∨ c = ':' ∨ c = '"' ∨ c = '/' ∨ c = '\\' ∨ c = '|' ∨ c = '?' ∨ c = '*'

/-- re.sub of a whitespace run with a single space. -/
def collapseWs : List Char → List Char
  | [] => []
  | [c] => if isSpaceChar c then [' '] else [c]
  | c :: d :: cs =>
    if isSpaceChar c ∧ isSpaceChar d then collapseWs (d :: cs)
    else (if isSpaceChar c then ' ' else c) :: collapseWs (d :: cs)

/-- Python str.strip() on the modelled whitespace set. -/
def pyStripWs (l : List Char) : List Char :=
  (l.dropWhile isSpaceChar).reverse.dropWhile isSpaceChar |>.reverse

/-- Python name[:200].rsplit(' ', 1)[0]: the 200-character prefix, cut
back to the last space when one is present. -/
def truncAt200 (l : List Char) : List Char :=
  let t := l.take 200
  if ' ' ∈ t then (t.reverse.dropWhile (fun c => c ≠ ' ')).reverse.dropLast
  else t

/-- Model of _sanitize_filename (renamer.py lines 551-562): NFKD
normalization, removal of illegal filename characters, whitespace
collapsing and stripping, truncation to 200 characters at a space
boundary. -/
def sanitizeFilename (name : String) : String :=
  let n1 := (nfkdModel name).data
  let n2 := n1.filter (fun c => !isIllegalChar c)
  let n3 := pyStripWs (collapseWs n2)
  if 200 < n3.length then String.mk (truncAt200 n3) else String.mk n3

/-- Exact word-overlap ratio of crossref_search_title before rounding:
query words (lower-cased, whitespace-split, deduplicated) present in the
result title, divided by the number of distinct query words. -/
def overlapFrac (title : String) (best : CRItem) : ℚ :=
  let words_q := (pySplitWs (pyLower title)).dedup
  let words_r := (pySplitWs (pyLower (parseCrossrefItem best).title)).dedup
  ((words_q.filter (fun word => word ∈ words_r)).length : ℚ) / (words_q.length : ℚ)

/-- Provider environment in which every lookup fails or finds nothing. -/
def envNone : ProviderEnv :=
  ⟨fun _ => none, fun _ => none, fun _ => none, fun _ => none, fun _ => none⟩

/-- Extraction result with no identifiers and no title guess. -/
def infoEmpty : ExtractedInfo := {}

/-- Extraction result with a DOI only, whose lookup will fail. -/
def infoDoiOnly : ExtractedInfo := { doi := some "10.1/abc" }

/-- Extraction result with a title guess only. -/
def infoTitle : ExtractedInfo := { title_guess := some "deep learning survey" }

/-- A CrossRef title-search record at the acceptance threshold. -/
def mHalf : Metadata := { title := "T", source := "crossref", confidence := 1 / 2 }

/-- Environment whose title search returns a record of confidence 0.5. -/
def envHalf : ProviderEnv :=
  ⟨fun _ => none, fun _ => none, fun _ => some mHalf, fun _ => none, fun _ => none⟩

/-- CrossRef item whose only populated field is the title list. -/
def itemAlpha : CRItem := { title := ["alpha"] }

/-- Record parsed from itemAlpha with the overlap confidence of the
one-word query "alpha" (full overlap, confidence 1). -/
def mAlpha : Metadata :=
  { title := "alpha", doi := some "", source := "crossref", confidence := 1 }

/-- Default settings (no Zotero credentials). -/
def stEmpty : SettingsM := {}

/-- Zotero sync stub; never reached in the scenarios below. -/
def noSync : String → String → Bool := fun _ _ => false

/-- Empty world (no files, empty journal). -/
def wEmpty : World := { fs := [], log := [] }

/-- Fixtures for the two-item collision batch: two files renamed to the
same proposed name "Paper.pdf". -/
def pA : PathM := ⟨"docs", "a.pdf"⟩

def pB : PathM := ⟨"docs", "b.pdf"⟩

def wPaper : World := { fs := [pA, pB], log := [] }

def itemA : RenameItem := { original_path := pA, new_name := some "Paper.pdf" }

def itemB : RenameItem := { original_path := pB, new_name := some "Paper.pdf" }

def pPaper : PathM := ⟨"docs", "Paper.pdf"⟩

def pPaper1 : PathM := ⟨"docs", "Paper (1).pdf"⟩

/-- Fixtures for the self-rename counterexample: a file renamed to its
own current name. -/
def pSelf : PathM := ⟨"d", "a.pdf"⟩

def wSelf : World := { fs := [pSelf], log := [] }

def itemSelf : RenameItem := { original_path := pSelf, new_name := some "a.pdf" }

/-- Fixtures for the undo round-trip: a genuine rename to a new name. -/
def pOrig : PathM := ⟨"d", "o.pdf"⟩

def wRound : World := { fs := [pOrig], log := [] }

def itemRound : RenameItem := { original_path := pOrig, new_name := some "n.pdf" }

/-- Fixtures for the three-entry session-undo scenario: the middle
entry's target file was deleted externally (it is absent from fs). -/
def o0 : PathM := ⟨"d", "o0.pdf"⟩

def t0 : PathM := ⟨"d", "t0.pdf"⟩

def o1 : PathM := ⟨"d", "o1.pdf"⟩

def t1 : PathM := ⟨"d", "t1.pdf"⟩

def o2 : PathM := ⟨"d", "o2.pdf"⟩

def t2 : PathM := ⟨"d", "t2.pdf"⟩

def wSession : World :=
  { fs := [t0, t2],
    log := [{ original_path := o0, new_path := t0, session_id := "s1" },
            { original_path := o1, new_path := t1, session_id := "s1" },
            { original_path := o2, new_path := t2, session_id := "s1" }] }

/-- Input on which sanitization is not idempotent: a letter, a combining
acute accent (class 230), a colon, and a combining dot below
(class 220).  Removing the colon joins the two marks into one combining
sequence that is no longer canonically ordered. -/
def nonIdemInput : String := String.mk ['a', '́', ':', '̣']

/-!  Theorems.  -/

/-- Claim C1: for every input document (every combination of extracted
DOI, ISBN and title guess, and every provider outcome, with no-match and
transport failure both modelled by none) resolve_metadata returns
exactly one Metadata record — the embedding is a total function — and
when every waterfall step is exhausted the record is the manual_review
fallback. -/
theorem resolve_metadata_one_record (env : ProviderEnv) (info : ExtractedInfo) (p : String) :
    (∃! m : Metadata, resolve_metadata env info p = m) ∧
    (allStepsExhausted env info → (resolve_metadata env info p).source = "manual_review") := by
  constructor
  · exact ⟨resolve_metadata env info p, rfl, fun y hy => hy.symm⟩
  · rintro ⟨h1, h2, h3, h4, h5⟩
    unfold resolve_metadata
    rw [h1, h2, h3, h4, h5]
    rfl

/-- Witness for C1: a document with no identifiers and every provider
failing resolves to a manual_review record. -/
theorem resolve_metadata_one_record_witness :
    (resolve_metadata envNone infoEmpty "scans/x.pdf").source = "manual_review" :=
  (resolve_metadata_one_record envNone infoEmpty "scans/x.pdf").2 ⟨rfl, rfl, rfl, rfl, rfl⟩

/-- Claim C5: in the waterfall's title step, a primary free-text search
result is accepted as terminal exactly when its confidence reaches 0.5;
below 0.5 the waterfall falls through to the next provider (Semantic
Scholar). -/
theorem title_step_threshold (env : ProviderEnv) (info : ExtractedInfo) (p : String)
    (t : String) (m : Metadata)
    (hd : info.doi = none) (hi : info.isbn = none)
    (ht : info.title_guess = some t) (htne : t ≠ "")
    (hc : env.crossrefTitle t = some m) :
    (1 / 2 ≤ m.confidence → resolve_metadata env info p = m) ∧
    (m.confidence < 1 / 2 →
      ∀ m2, env.semanticScholar t = some m2 → resolve_metadata env info p = m2) := by
  have he : effTitle info = some t := by simp [effTitle, ht, htne]
  have h1 : doiStep env info = none := by simp [doiStep, hd]
  have h2 : isbnStep env info = none := by simp [isbnStep, hi]
  constructor
  · intro hge
    have h3 : titleStep env info = some m := by
      simp only [titleStep, he, hc]
      rw [if_pos hge]
    unfold resolve_metadata
    rw [h1, h2, h3]
  · intro hlt m2 hs
    have h3 : titleStep env info = none := by
      simp only [titleStep, he, hc]
      rw [if_neg (not_le.mpr hlt)]
    have h4 : semStep env info = some m2 := by
      simp [semStep, he, hs]
    unfold resolve_metadata
    rw [h1, h2, h3, h4]

/-- Witness for C5: a title search returning confidence exactly 0.5 is
accepted as the terminal record. -/
theorem title_step_threshold_witness :
    resolve_metadata envHalf infoTitle "x.pdf" = mHalf :=
  (title_step_threshold envHalf infoTitle "x.pdf" "deep learning survey" mHalf
    rfl rfl rfl (by decide) rfl).1 (by norm_num [mHalf])

/-- Claim C6 (amended): when every waterfall step is exhausted, the
synthesized record has the title guess as title (or the base filename
with extension stripped), empty authors, year, journal and publisher,
source manual_review and confidence 0.0 — but its doi field carries the
extracted DOI rather than being empty. -/
theorem manual_review_fields (env : ProviderEnv) (info : ExtractedInfo) (p : String)
    (h1 : doiStep env info = none) (h2 : isbnStep env info = none)
    (h3 : titleStep env info = none) (h4 : semStep env info = none)
    (h5 : zotStep env info = none) :
    resolve_metadata env info p = manualRecord info p ∧
    (resolve_metadata env info p).title = (effTitle info).getD (splitextStem (basenameOf p)) ∧
    (resolve_metadata env info p).authors = [] ∧
    (resolve_metadata env info p).year = "" ∧
    (resolve_metadata env info p).journal = "" ∧
    (resolve_metadata env info p).publisher = "" ∧
    (resolve_metadata env info p).doi = info.doi ∧
    (resolve_metadata env info p).source = "manual_review" ∧
    (resolve_metadata env info p).confidence = 0 := by
  have hr : resolve_metadata env info p = manualRecord info p := by
    unfold resolve_metadata
    rw [h1, h2, h3, h4, h5]
  refine ⟨hr, ?_, ?_, ?_, ?_, ?_, ?_, ?_, ?_⟩ <;> rw [hr] <;> rfl

/-- Witness for C6: the document "scans/raw_scan.pdf" with no
identifiers and no extractable title resolves to a manual_review record
titled "raw_scan" with confidence 0.0 and doi equal to the (absent)
extracted DOI. -/
theorem manual_review_fields_witness :
    (resolve_metadata envNone infoEmpty "scans/raw_scan.pdf").title = "raw_scan" ∧
    (resolve_metadata envNone infoEmpty "scans/raw_scan.pdf").confidence = 0 ∧
    (resolve_metadata envNone infoEmpty "scans/raw_scan.pdf").doi = none := by
  have h := manual_review_fields envNone infoEmpty "scans/raw_scan.pdf" rfl rfl rfl rfl rfl
  exact ⟨h.2.1.trans (by decide), h.2.2.2.2.2.2.2.2, h.2.2.2.2.2.2.1⟩

/-- Counterexample for C6 as stated: a document whose extracted DOI
failed to resolve still reaches the manual_review fallback, and the
synthesized record's doi field holds that DOI — it is not empty. -/
theorem manual_review_keeps_doi :
    (resolve_metadata envNone infoDoiOnly "d/x.pdf").source = "manual_review" ∧
    (resolve_metadata envNone infoDoiOnly "d/x.pdf").doi = some "10.1/abc" ∧
    (resolve_metadata envNone infoDoiOnly "d/x.pdf").doi ≠ none ∧
    (resolve_metadata envNone infoDoiOnly "d/x.pdf").doi ≠ some "" := by
  refine ⟨rfl, rfl, ?_, ?_⟩ <;> decide

/-- Claim C7: sanitization applied twice differs from sanitization
applied once on the failing input "a" U+0301 ":" U+0323 — removing the
colon merges two combining sequences out of canonical order, so the
second pass's NFKD normalization reorders the marks.  The filename
sanitizer is therefore not idempotent, contradicting the specified
idempotence requirement. -/
theorem sanitize_not_idempotent :
    sanitizeFilename nonIdemInput = String.mk ['a', '́', '̣'] ∧
    sanitizeFilename (String.mk ['a', '́', '̣']) = String.mk ['a', '̣', '́'] ∧
    sanitizeFilename (sanitizeFilename nonIdemInput) ≠ sanitizeFilename nonIdemInput := by
  refine ⟨?_, ?_, ?_⟩ <;> decide

/-- Claim C10: undo_single is atomic on failure — whenever it returns
any outcome other than success, the world (filesystem and persisted
journal alike) is left completely unchanged. -/
theorem undo_single_pure_on_error (w : World) (i : Int)
    (h : ∀ p, (undo_single w i).2 ≠ UndoResult.success p) :
    (undo_single w i).1 = w := by
  by_cases hb : i < 0 ∨ (w.log.length : Int) ≤ i
  · simp [undo_single, hb]
  · rcases hg : w.log[i.toNat]? with _ | entry
    · simp [undo_single, hb, hg]
    · by_cases hu : entry.undone
      · simp [undo_single, hb, hg, hu]
      · by_cases hn : entry.new_path ∈ w.fs
        · by_cases ho : entry.original_path ∈ w.fs
          · simp [undo_single, hb, hg, hu, hn, ho]
          · exact absurd (by simp [undo_single, hb, hg, hu, hn, ho])
              (h entry.original_path)
        · simp [undo_single, hb, hg, hu, hn]

/-- Witness for C10: an out-of-bounds undo on the empty journal leaves
the world unchanged. -/
theorem undo_single_pure_on_error_witness : (undo_single wEmpty 0).1 = wEmpty :=
  undo_single_pure_on_error wEmpty 0
    (fun p hp => by
      rw [show undo_single wEmpty 0 = (wEmpty, UndoResult.invalidIndex) from rfl] at hp
      exact UndoResult.noConfusion hp)

/-- Helper for C8: an attempt at a position whose first character is not
the letter i (either case) cannot match ISBN_PATTERN, because the ISBN
label is mandatory in the pattern. -/
theorem matchISBNAt_eq_none_of_head (c : Char) (cs : List Char)
    (h : c.toLower ≠ 'i') : matchISBNAt (c :: cs) = none := by
  rcases cs with _ | ⟨c2, _ | ⟨c3, _ | ⟨c4, rest⟩⟩⟩ <;> simp [matchISBNAt, h]

/-- Counterexample for C8 as stated: a text consisting of a bare
13-digit ISBN with no ISBN label yields no extracted ISBN, because the
label group in ISBN_PATTERN carries no optional quantifier. -/
theorem bare_isbn_not_captured : extract_isbn "9780306406157" = none := by decide

/-- Claim C8 (amended): the ISBN label is mandatory, not optional — a
text containing no letter i at all (hence no ISBN label) never matches,
while a labelled ISBN is captured with hyphens and whitespace stripped
from the captured value. -/
theorem isbn_label_required_and_stripped :
    (∀ cs : List Char, (∀ c ∈ cs, c.toLower ≠ 'i') → searchISBN cs = none) ∧
    (∀ (s r : String), extract_isbn s = some r →
      ∀ c ∈ r.data, c ≠ '-' ∧ isSpaceChar c = false) ∧
    extract_isbn "ISBN 978-0-306-40615-7" = some "9780306406157" ∧
    extract_isbn "isbn: 0-306-40615-2" = some "0306406152" := by
  refine ⟨?_, ?_, by decide, by decide⟩
  · intro cs h
    induction cs with
    | nil => rfl
    | cons c rest ih =>
      rw [searchISBN, matchISBNAt_eq_none_of_head c rest (h c (by simp))]
      exact ih (fun d hd => h d (by simp [hd]))
  · intro s r hr c hc
    unfold extract_isbn at hr
    rcases hs : searchISBN s.data with _ | g
    · rw [hs] at hr; exact Option.noConfusion hr
    · rw [hs] at hr
      rw [Option.map_some'] at hr
      have hrr := (Option.some.injEq _ _).mp hr
      have hrd : r.data = g.filter (fun c => !(c == '-' || isSepChar c)) := by
        rw [← hrr]
      rw [hrd] at hc
      have := List.of_mem_filter hc
      simp only [Bool.not_eq_true', Bool.or_eq_false_iff, beq_eq_false_iff_ne] at this
      refine ⟨this.1, ?_⟩
      have h2 := this.2
      simp [isSepChar] at h2
      exact h2.2

/-- Witness for C8: applying the label-required clause to the bare
13-digit ISBN text, which contains no letter i. -/
theorem isbn_label_required_witness : searchISBN ("9780306406157").data = none :=
  isbn_label_required_and_stripped.1 ("9780306406157").data (by decide)

/-- Helper: the branch of crossref_search_title that computes the
overlap confidence, in closed form. -/
theorem crossref_search_title_eq (title : String) (best : CRItem) (rest : List CRItem)
    (hrt : pyLower (parseCrossrefItem best).title ≠ "")
    (hqt : pyLower title ≠ "")
    (hq : (pySplitWs (pyLower title)).dedup ≠ []) :
    crossref_search_title title (best :: rest) =
      some { parseCrossrefItem best with confidence := round2 (overlapFrac title best) } := by
  simp only [crossref_search_title, overlapFrac]
  rw [if_pos ⟨hrt, hqt⟩, if_pos hq]

/-- Helper: half-even rounding evaluates to n when q lies in the
half-open interval from n to n plus one half. -/
theorem roundHalfEven_eq_of_lt_half (q : ℚ) (n : ℤ) (hle : (n : ℚ) ≤ q)
    (hlt : q - (n : ℚ) < 1 / 2) : roundHalfEven q = n := by
  have hf : ⌊q⌋ = n := by
    rw [Int.floor_eq_iff]
    refine ⟨hle, by linarith⟩
  unfold roundHalfEven
  rw [hf, if_pos hlt]

/-- Helper: round2 fixes 1/3 to 0.33. -/
theorem round2_third : round2 (1 / 3 : ℚ) = 33 / 100 := by
  unfold round2
  rw [roundHalfEven_eq_of_lt_half (100 * (1 / 3 : ℚ)) 33 (by norm_num) (by norm_num)]
  norm_num

/-- Helper: round2 fixes 1. -/
theorem round2_one : round2 (1 : ℚ) = 1 := by
  unfold round2
  rw [roundHalfEven_eq_of_lt_half (100 * (1 : ℚ)) 100 (by norm_num) (by norm_num)]
  norm_num

/-- Counterexample for C4 as stated: for the three-word query
"alpha beta gamma" against a top result titled "alpha", the stored
confidence is 0.33 — the overlap ratio rounded to two decimals — and
not the exact ratio 1/3 demanded by the claim. -/
theorem crossref_confidence_not_exact :
    (crossref_search_title "alpha beta gamma" [itemAlpha]).map Metadata.confidence =
      some (33 / 100) ∧
    overlapFrac "alpha beta gamma" itemAlpha = 1 / 3 ∧
    (33 / 100 : ℚ) ≠ 1 / 3 := by
  have hov : overlapFrac "alpha beta gamma" itemAlpha = 1 / 3 := by
    have h1 : ((pySplitWs (pyLower "alpha beta gamma")).dedup.filter
        (fun word => word ∈ (pySplitWs (pyLower (parseCrossrefItem itemAlpha).title)).dedup)).length
          = 1 := by decide
    have h2 : (pySplitWs (pyLower "alpha beta gamma")).dedup.length = 3 := by decide
    simp only [overlapFrac]
    rw [h1, h2]
    norm_num
  have hw := crossref_search_title_eq "alpha beta gamma" itemAlpha []
    (by decide) (by decide) (by decide)
  rw [hov, round2_third] at hw
  exact ⟨by rw [hw]; rfl, hov, by norm_num⟩

/-- Helper: the half-even rounding of a rational is within 1/2 of it. -/
theorem roundHalfEven_close (q : ℚ) : |(roundHalfEven q : ℚ) - q| ≤ 1 / 2 := by
  have h0 : (⌊q⌋ : ℚ) ≤ q := Int.floor_le q
  have h1 : q < ⌊q⌋ + 1 := Int.lt_floor_add_one q
  unfold roundHalfEven
  by_cases hlt : q - ⌊q⌋ < 1 / 2
  · rw [if_pos hlt]
    rw [abs_le]
    constructor <;> linarith
  · rw [if_neg hlt]
    by_cases hgt : 1 / 2 < q - ⌊q⌋
    · rw [if_pos hgt]
      rw [abs_le]
      push_cast
      constructor <;> linarith
    · rw [if_neg hgt]
      have heq : q - ⌊q⌋ = 1 / 2 := le_antisymm (not_lt.mp hgt) (not_lt.mp hlt)
      by_cases hev : ⌊q⌋ % 2 = 0
      · rw [if_pos hev]
        rw [abs_le]
        constructor <;> linarith
      · rw [if_neg hev]
        rw [abs_le]
        push_cast
        constructor <;> linarith

/-- Helper: round2 moves a rational by at most 1/200 (half a cent). -/
theorem round2_close (q : ℚ) : |round2 q - q| ≤ 1 / 200 := by
  have h := roundHalfEven_close (100 * q)
  unfold round2
  have heq : (roundHalfEven (100 * q) : ℚ) / 100 - q =
      ((roundHalfEven (100 * q) : ℚ) - 100 * q) / 100 := by ring
  rw [heq, abs_div]
  rw [show |(100 : ℚ)| = 100 by norm_num]
  linarith [h]

/-- Claim C4 (amended): when the query and the parsed top result both
have nonempty lower-cased titles and the query has at least one word,
the stored confidence is the word-overlap ratio rounded to two decimal
places (Python's round(x, 2)), hence within 0.005 of the exact ratio —
not the exact ratio itself. -/
theorem crossref_confidence_rounded_overlap (title : String) (best : CRItem)
    (rest : List CRItem) (m : Metadata)
    (hm : crossref_search_title title (best :: rest) = some m)
    (hrt : pyLower (parseCrossrefItem best).title ≠ "")
    (hqt : pyLower title ≠ "")
    (hq : (pySplitWs (pyLower title)).dedup ≠ []) :
    m.confidence = round2 (overlapFrac title best) ∧
    |m.confidence - overlapFrac title best| ≤ 1 / 200 := by
  rw [crossref_search_title_eq title best rest hrt hqt hq] at hm
  have hmm := (Option.some.injEq _ _).mp hm
  have hc : m.confidence = round2 (overlapFrac title best) := by rw [← hmm]
  exact ⟨hc, by rw [hc]; exact round2_close _⟩

/-- Helper: digit characters decode back to their value. -/
theorem digitVal_digitChar : ∀ d : Nat, d < 10 → digitVal (digitChar d) = d := by decide

/-- Helper: appending one digit multiplies the decoded value by ten. -/
theorem decValL_append_digit (l : List Char) (c : Char) :
    decValL (l ++ [c]) = 10 * decValL l + digitVal c := by
  unfold decValL
  rw [List.foldl_append]
  rfl

/-- Helper: with sufficient fuel, the decimal digits of n decode to n. -/
theorem decValL_decDigitsCore : ∀ fuel n : Nat, n < fuel →
    decValL (decDigitsCore fuel n) = n := by
  intro fuel
  induction fuel with
  | zero => intro n h; omega
  | succ f ih =>
    intro n h
    rw [decDigitsCore]
    by_cases h10 : n < 10
    · rw [if_pos h10]
      show decValL [digitChar n] = n
      have hd := digitVal_digitChar n h10
      simp [decValL, hd]
    · rw [if_neg h10]
      rw [decValL_append_digit]
      have hlt : n / 10 < f := by
        have hx : n / 10 < n := Nat.div_lt_self (by omega) (by decide)
        omega
      rw [ih (n / 10) hlt]
      rw [digitVal_digitChar (n % 10) (Nat.mod_lt n (by decide))]
      omega

/-- Helper: decimal digit lists decode to the represented number. -/
theorem decValL_decDigits (n : Nat) : decValL (decDigits n) = n :=
  decValL_decDigitsCore (n + 1) n (Nat.lt_succ_self n)

/-- Helper: Python's decimal rendering of naturals is injective. -/
theorem decRepr_inj {a b : Nat} (h : decRepr a = decRepr b) : a = b := by
  have hd : decDigits a = decDigits b := congrArg String.data h
  have := congrArg decValL hd
  rwa [decValL_decDigits, decValL_decDigits] at this

/-- Helper: collision candidate names with the same stem and suffix are
pairwise distinct across counters. -/
theorem candName_inj (stem sfx : String) {j k : Nat}
    (h : candName stem sfx j = candName stem sfx k) : j = k := by
  have hd := congrArg String.data h
  simp only [candName, String.data_append, List.append_assoc] at hd
  have h1 := List.append_cancel_left hd
  have h2 := List.append_cancel_left h1
  have h3 : decDigits j ++ (")".data ++ sfx.data) = decDigits k ++ (")".data ++ sfx.data) := h2
  have h4 : decDigits j = decDigits k := List.append_cancel_right h3
  have := congrArg decValL h4
  rwa [decValL_decDigits, decValL_decDigits] at this

/-- Helper: among any consecutive run of fs.length + 1 candidate names,
at least one is not occupied (the candidates are pairwise distinct while
fs is finite). -/
theorem exists_free_cand (fs : List PathM) (dir stem sfx : String) (k : Nat) :
    ∃ j, j < fs.length + 1 ∧ (⟨dir, candName stem sfx (k + j)⟩ : PathM) ∉ fs := by
  by_contra hall
  push_neg at hall
  have hsub : ((List.range (fs.length + 1)).map
      (fun j => (⟨dir, candName stem sfx (k + j)⟩ : PathM))) ⊆ fs := by
    intro x hx
    simp only [List.mem_map, List.mem_range] at hx
    obtain ⟨j, hj, rfl⟩ := hx
    exact hall j hj
  have hnd : ((List.range (fs.length + 1)).map
      (fun j => (⟨dir, candName stem sfx (k + j)⟩ : PathM))).Nodup := by
    refine List.Nodup.map ?_ (List.nodup_range _)
    intro a b hab
    simp only [PathM.mk.injEq] at hab
    have := candName_inj stem sfx hab.2
    omega
  have hle := (List.subperm_of_subset hnd hsub).length_le
  simp only [List.length_map, List.length_range] at hle
  omega

/-- Helper: when some candidate within the fuel window is free, the
collision loop stops at the first free candidate; every candidate
before it is occupied. -/
theorem firstFreeFrom_spec (fs : List PathM) (dir stem sfx : String) :
    ∀ fuel k : Nat, (∃ j, j < fuel ∧ (⟨dir, candName stem sfx (k + j)⟩ : PathM) ∉ fs) →
    ∃ j, j < fuel ∧
      firstFreeFrom fs dir stem sfx fuel k = ⟨dir, candName stem sfx (k + j)⟩ ∧
      (⟨dir, candName stem sfx (k + j)⟩ : PathM) ∉ fs ∧
      ∀ i, i < j → (⟨dir, candName stem sfx (k + i)⟩ : PathM) ∈ fs := by
  intro fuel
  induction fuel with
  | zero =>
    rintro k ⟨j, hj, _⟩
    omega
  | succ f ih =>
    rintro k ⟨j, hj, hfree⟩
    by_cases hmem : (⟨dir, candName stem sfx k⟩ : PathM) ∈ fs
    · have hj0 : j ≠ 0 := by
        rintro rfl
        exact hfree hmem
      obtain ⟨j1, rfl⟩ : ∃ j1, j = j1 + 1 := ⟨j - 1, by omega⟩
      have hshift : (⟨dir, candName stem sfx (k + 1 + j1)⟩ : PathM) ∉ fs := by
        rw [show k + 1 + j1 = k + (j1 + 1) by omega]
        exact hfree
      obtain ⟨j2, hj2, heq, hfree2, hocc⟩ := ih (k + 1) ⟨j1, by omega, hshift⟩
      refine ⟨j2 + 1, by omega, ?_, ?_, ?_⟩
      · rw [firstFreeFrom, if_pos hmem, heq]
        rw [show k + 1 + j2 = k + (j2 + 1) by omega]
      · rw [show k + (j2 + 1) = k + 1 + j2 by omega]
        exact hfree2
      · intro i hi
        rcases Nat.eq_zero_or_pos i with rfl | hpos
        · simpa using hmem
        · have := hocc (i - 1) (by omega)
          rw [show k + 1 + (i - 1) = k + i by omega] at this
          exact this
    · refine ⟨0, by omega, ?_, by simpa using hmem, by omega⟩
      rw [firstFreeFrom, if_neg hmem]
      simp

/-- Helper: in the collision case the selected target is the first free
numbered candidate — all smaller counters from 1 are occupied. -/
theorem resolveTarget_collision (fs : List PathM) (original : PathM) (nm : String)
    (hmem : (⟨original.dir, nm⟩ : PathM) ∈ fs)
    (hne : (⟨original.dir, nm⟩ : PathM) ≠ original) :
    ∃ k, 1 ≤ k ∧
      resolveTarget fs original nm =
        ⟨original.dir, candName (stemOf nm) (suffixOf nm) k⟩ ∧
      (⟨original.dir, candName (stemOf nm) (suffixOf nm) k⟩ : PathM) ∉ fs ∧
      ∀ i, 1 ≤ i → i < k →
        (⟨original.dir, candName (stemOf nm) (suffixOf nm) i⟩ : PathM) ∈ fs := by
  obtain ⟨j0, hj0, hfree0⟩ := exists_free_cand fs original.dir (stemOf nm) (suffixOf nm) 1
  obtain ⟨j, hj, heq, hfree, hocc⟩ := firstFreeFrom_spec fs original.dir
    (stemOf nm) (suffixOf nm) (fs.length + 1) 1 ⟨j0, hj0, hfree0⟩
  refine ⟨1 + j, by omega, ?_, hfree, ?_⟩
  · unfold resolveTarget
    rw [if_pos ⟨hmem, hne⟩]
    exact heq
  · intro i h1 hik
    have := hocc (i - 1) (by omega)
    rw [show 1 + (i - 1) = i by omega] at this
    exact this

/-- Helper: a selected target that differs from the original path is
never an occupied path. -/
theorem resolveTarget_free_of_ne (fs : List PathM) (original : PathM) (nm : String)
    (h : resolveTarget fs original nm ≠ original) :
    resolveTarget fs original nm ∉ fs := by
  by_cases hc : (⟨original.dir, nm⟩ : PathM) ∈ fs ∧ (⟨original.dir, nm⟩ : PathM) ≠ original
  · obtain ⟨k, _, heq, hfree, _⟩ := resolveTarget_collision fs original nm hc.1 hc.2
    rw [heq]
    exact hfree
  · have heq : resolveTarget fs original nm = ⟨original.dir, nm⟩ := by
      unfold resolveTarget
      rw [if_neg hc]
    rw [heq] at h ⊢
    intro hin
    exact hc ⟨hin, h⟩

/-- Claim C3: when an item's target name collides with an existing file
other than the original, the executor selects the first free
parenthesised numeric disambiguator (counting from 1, every smaller
counter being occupied); in particular a batch of two items both
proposing "Paper.pdf" yields "Paper.pdf" and "Paper (1).pdf" in batch
order. -/
theorem collision_disambiguation :
    (∀ (fs : List PathM) (original : PathM) (nm : String),
      (⟨original.dir, nm⟩ : PathM) ∈ fs → (⟨original.dir, nm⟩ : PathM) ≠ original →
      ∃ k, 1 ≤ k ∧
        resolveTarget fs original nm =
          ⟨original.dir, candName (stemOf nm) (suffixOf nm) k⟩ ∧
        (⟨original.dir, candName (stemOf nm) (suffixOf nm) k⟩ : PathM) ∉ fs ∧
        ∀ i, 1 ≤ i → i < k →
          (⟨original.dir, candName (stemOf nm) (suffixOf nm) i⟩ : PathM) ∈ fs) ∧
    (execute_renames stEmpty noSync wPaper [itemA, itemB] "s1").2 =
      [RenameResult.ok pA pPaper none, RenameResult.ok pB pPaper1 none] ∧
    (execute_renames stEmpty noSync wPaper [itemA, itemB] "s1").1.fs = [pPaper, pPaper1] := by
  refine ⟨resolveTarget_collision, by decide, by decide⟩

/-- Witness for C3: the collision clause applied to a concrete
filesystem in which "Paper.pdf" is occupied by another file. -/
theorem collision_disambiguation_witness :
    ∃ k, 1 ≤ k ∧
      resolveTarget [pPaper] pA "Paper.pdf" =
        ⟨pA.dir, candName (stemOf "Paper.pdf") (suffixOf "Paper.pdf") k⟩ ∧
      (⟨pA.dir, candName (stemOf "Paper.pdf") (suffixOf "Paper.pdf") k⟩ : PathM) ∉ [pPaper] ∧
      ∀ i, 1 ≤ i → i < k →
        (⟨pA.dir, candName (stemOf "Paper.pdf") (suffixOf "Paper.pdf") i⟩ : PathM) ∈ [pPaper] :=
  collision_disambiguation.1 [pPaper] pA "Paper.pdf" (by decide) (by decide)

/-- Helper: undo_single rejects an out-of-bounds index. -/
theorem undo_single_invalid (w : World) (i : Int)
    (h : i < 0 ∨ (w.log.length : Int) ≤ i) :
    undo_single w i = (w, UndoResult.invalidIndex) := by
  unfold undo_single
  rw [if_pos h]

/-- Helper: undo_single rejects an entry already undone. -/
theorem undo_single_already (w : World) (n : Nat) (e : LogEntry)
    (hget : w.log[n]? = some e) (hu : e.undone = true) :
    undo_single w (n : Int) = (w, UndoResult.alreadyUndone) := by
  have hlt : n < w.log.length := (List.getElem?_eq_some_iff.mp hget).1
  have hb : ¬((n : Int) < 0 ∨ (w.log.length : Int) ≤ (n : Int)) := by omega
  unfold undo_single
  rw [if_neg hb]
  simp [hget, hu]

/-- Helper: undo_single rejects an entry whose target file is gone. -/
theorem undo_single_target_missing (w : World) (n : Nat) (e : LogEntry)
    (hget : w.log[n]? = some e) (hu : e.undone = false) (hn : e.new_path ∉ w.fs) :
    undo_single w (n : Int) = (w, UndoResult.targetMissing e.new_path) := by
  have hlt : n < w.log.length := (List.getElem?_eq_some_iff.mp hget).1
  have hb : ¬((n : Int) < 0 ∨ (w.log.length : Int) ≤ (n : Int)) := by omega
  unfold undo_single
  rw [if_neg hb]
  simp [hget, hu, hn]

/-- Helper: undo_single rejects an entry whose original path is
occupied. -/
theorem undo_single_source_occupied (w : World) (n : Nat) (e : LogEntry)
    (hget : w.log[n]? = some e) (hu : e.undone = false)
    (hn : e.new_path ∈ w.fs) (ho : e.original_path ∈ w.fs) :
    undo_single w (n : Int) = (w, UndoResult.sourceOccupied e.original_path) := by
  have hlt : n < w.log.length := (List.getElem?_eq_some_iff.mp hget).1
  have hb : ¬((n : Int) < 0 ∨ (w.log.length : Int) ≤ (n : Int)) := by omega
  unfold undo_single
  rw [if_neg hb]
  simp [hget, hu, hn, ho]

/-- Helper: on the success path undo_single moves the file back, flips
the entry's undone flag and persists the full journal. -/
theorem undo_single_success (w : World) (n : Nat) (e : LogEntry)
    (hget : w.log[n]? = some e) (hu : e.undone = false)
    (hn : e.new_path ∈ w.fs) (ho : e.original_path ∉ w.fs) :
    undo_single w (n : Int) =
      ({ fs := moveFile w.fs e.new_path e.original_path,
         log := w.log.set n { e with undone := true } },
       UndoResult.success e.original_path) := by
  have hlt : n < w.log.length := (List.getElem?_eq_some_iff.mp hget).1
  have hb : ¬((n : Int) < 0 ∨ (w.log.length : Int) ≤ (n : Int)) := by omega
  unfold undo_single
  rw [if_neg hb]
  simp [hget, hu, hn, ho]

/-- Helper: the destination of a move exists afterwards. -/
theorem moveFile_mem_dst (fs : List PathM) (src dst : PathM) :
    dst ∈ moveFile fs src dst := by
  unfold moveFile
  by_cases h : dst ∈ fs.erase src
  · rw [if_pos h]; exact h
  · rw [if_neg h]; simp

/-- Helper: membership after a move. -/
theorem mem_moveFile (fs : List PathM) (src dst x : PathM) :
    x ∈ moveFile fs src dst ↔ x = dst ∨ x ∈ fs.erase src := by
  unfold moveFile
  by_cases h : dst ∈ fs.erase src
  · rw [if_pos h]
    constructor
    · exact Or.inr
    · rintro (rfl | hx)
      · exact h
      · exact hx
  · rw [if_neg h]
    simp [or_comm]

/-- Helper: a move preserves distinctness of the path list. -/
theorem moveFile_nodup (fs : List PathM) (src dst : PathM) (h : fs.Nodup) :
    (moveFile fs src dst).Nodup := by
  unfold moveFile
  by_cases hd : dst ∈ fs.erase src
  · rw [if_pos hd]
    exact h.erase src
  · rw [if_neg hd]
    refine List.Nodup.append (h.erase src) (List.nodup_singleton dst) ?_
    intro x hx hx2
    simp only [List.mem_singleton] at hx2
    subst hx2
    exact hd hx

/-- Helper: the executor's step on an existing original, in closed
form. -/
theorem executeOne_found (st : SettingsM) (zsync : String → String → Bool) (sid : String)
    (w : World) (f : RenameItem) (hmem : f.original_path ∈ w.fs) :
    executeOne st zsync sid w f =
      ({ fs := moveFile w.fs f.original_path
            (resolveTarget w.fs f.original_path (effectiveNewName f)),
         log := w.log ++
           [{ original_path := f.original_path,
              new_path := resolveTarget w.fs f.original_path (effectiveNewName f),
              timestamp := "", metadata_source := f.source.getD "unknown",
              session_id := sid, metadata := f.metadata, undone := false }] },
       RenameResult.ok f.original_path
         (resolveTarget w.fs f.original_path (effectiveNewName f))
         (match f.metadata.bind (fun m => m.zotero_key) with
          | some key =>
            if key ≠ "" ∧ st.zotero_api_key ≠ "" then some (zsync key (effectiveNewName f))
            else none
          | none => none)) := by
  simp only [executeOne]
  rw [if_pos hmem]

/-- Helper: a one-item batch is a single executor step. -/
theorem execute_renames_single (st : SettingsM) (zsync : String → String → Bool)
    (w : World) (f : RenameItem) (sid : String) :
    execute_renames st zsync w [f] sid =
      ((executeOne st zsync sid w f).1, [(executeOne st zsync sid w f).2]) := by
  simp [execute_renames]

/-- Claim C2 (amended): undo_single fails with the invalid-index,
already-undone, target-missing and source-occupied errors under exactly
the conditions the code checks, in that order; on the success path it
moves the file back, flips undone and persists the journal, after which
a second undo of the same index fails with the already-undone error.
The rename/undo round-trip restores the original path exactly whenever
the executed rename's resolved target differs from the original path
(a rename to the file's own name is reported as a success whose undo
then fails with the source-occupied error, so the unrestricted
round-trip of the original claim does not hold). -/
theorem undo_single_contract :
    (∀ (w : World) (i : Int), (i < 0 ∨ (w.log.length : Int) ≤ i) →
      undo_single w i = (w, UndoResult.invalidIndex)) ∧
    (∀ (w : World) (n : Nat) (e : LogEntry), w.log[n]? = some e → e.undone = true →
      undo_single w (n : Int) = (w, UndoResult.alreadyUndone)) ∧
    (∀ (w : World) (n : Nat) (e : LogEntry), w.log[n]? = some e → e.undone = false →
      e.new_path ∉ w.fs →
      undo_single w (n : Int) = (w, UndoResult.targetMissing e.new_path)) ∧
    (∀ (w : World) (n : Nat) (e : LogEntry), w.log[n]? = some e → e.undone = false →
      e.new_path ∈ w.fs → e.original_path ∈ w.fs →
      undo_single w (n : Int) = (w, UndoResult.sourceOccupied e.original_path)) ∧
    (∀ (w : World) (n : Nat) (e : LogEntry), w.log[n]? = some e → e.undone = false →
      e.new_path ∈ w.fs → e.original_path ∉ w.fs →
      undo_single w (n : Int) =
        ({ fs := moveFile w.fs e.new_path e.original_path,
           log := w.log.set n { e with undone := true } },
         UndoResult.success e.original_path) ∧
      e.original_path ∈ (undo_single w (n : Int)).1.fs ∧
      (undo_single (undo_single w (n : Int)).1 (n : Int)).2 = UndoResult.alreadyUndone) ∧
    (∀ (st : SettingsM) (zsync : String → String → Bool) (w : World)
        (f : RenameItem) (sid : String),
      w.fs.Nodup → f.original_path ∈ w.fs →
      resolveTarget w.fs f.original_path (effectiveNewName f) ≠ f.original_path →
      (undo_single (execute_renames st zsync w [f] sid).1 (w.log.length : Int)).2 =
        UndoResult.success f.original_path ∧
      f.original_path ∈
        (undo_single (execute_renames st zsync w [f] sid).1 (w.log.length : Int)).1.fs ∧
      resolveTarget w.fs f.original_path (effectiveNewName f) ∉
        (undo_single (execute_renames st zsync w [f] sid).1 (w.log.length : Int)).1.fs ∧
      (undo_single
        (undo_single (execute_renames st zsync w [f] sid).1 (w.log.length : Int)).1
        (w.log.length : Int)).2 = UndoResult.alreadyUndone) := by
  refine ⟨undo_single_invalid, undo_single_already, undo_single_target_missing,
    undo_single_source_occupied, ?_, ?_⟩
  · intro w n e hget hu hn ho
    have hlt : n < w.log.length := (List.getElem?_eq_some_iff.mp hget).1
    have hs := undo_single_success w n e hget hu hn ho
    refine ⟨hs, ?_, ?_⟩
    · rw [hs]
      exact moveFile_mem_dst _ _ _
    · rw [hs]
      have hget2 : (w.log.set n { e with undone := true })[n]? =
          some { e with undone := true } :=
        List.getElem?_set_self hlt
      rw [undo_single_already _ n _ hget2 rfl]
  · intro st zsync w f sid hnd hmem hne
    have htf : resolveTarget w.fs f.original_path (effectiveNewName f) ∉ w.fs :=
      resolveTarget_free_of_ne _ _ _ hne
    have hw1 : (execute_renames st zsync w [f] sid).1 =
        { fs := moveFile w.fs f.original_path
            (resolveTarget w.fs f.original_path (effectiveNewName f)),
          log := w.log ++
            [{ original_path := f.original_path,
               new_path := resolveTarget w.fs f.original_path (effectiveNewName f),
               timestamp := "", metadata_source := f.source.getD "unknown",
               session_id := sid, metadata := f.metadata, undone := false }] } := by
      rw [execute_renames_single, executeOne_found st zsync sid w f hmem]
    have hget : (w.log ++
        [{ original_path := f.original_path,
           new_path := resolveTarget w.fs f.original_path (effectiveNewName f),
           timestamp := "", metadata_source := f.source.getD "unknown",
           session_id := sid, metadata := f.metadata, undone := false }])[w.log.length]? =
        some { original_path := f.original_path,
               new_path := resolveTarget w.fs f.original_path (effectiveNewName f),
               timestamp := "", metadata_source := f.source.getD "unknown",
               session_id := sid, metadata := f.metadata, undone := false } :=
      List.getElem?_concat_length _ _
    have hn1 : resolveTarget w.fs f.original_path (effectiveNewName f) ∈
        moveFile w.fs f.original_path
          (resolveTarget w.fs f.original_path (effectiveNewName f)) :=
      moveFile_mem_dst _ _ _
    have ho1 : f.original_path ∉
        moveFile w.fs f.original_path
          (resolveTarget w.fs f.original_path (effectiveNewName f)) := by
      rw [mem_moveFile]
      rintro (h1 | h2)
      · exact hne h1.symm
      · rw [hnd.mem_erase_iff] at h2
        exact h2.1 rfl
    have hs := undo_single_success
      { fs := moveFile w.fs f.original_path
          (resolveTarget w.fs f.original_path (effectiveNewName f)),
        log := w.log ++
          [{ original_path := f.original_path,
             new_path := resolveTarget w.fs f.original_path (effectiveNewName f),
             timestamp := "", metadata_source := f.source.getD "unknown",
             session_id := sid, metadata := f.metadata, undone := false }] }
      w.log.length _ hget rfl hn1 ho1
    have hnd1 : (moveFile w.fs f.original_path
        (resolveTarget w.fs f.original_path (effectiveNewName f))).Nodup :=
      moveFile_nodup _ _ _ hnd
    refine ⟨?_, ?_, ?_, ?_⟩
    · rw [hw1, hs]
    · rw [hw1, hs]
      exact moveFile_mem_dst _ _ _
    · rw [hw1, hs]
      rw [mem_moveFile]
      rintro (h1 | h2)
      · exact hne h1
      · rw [hnd1.mem_erase_iff] at h2
        exact h2.1 rfl
    · rw [hw1, hs]
      have hlen : w.log.length < (w.log ++
          [({ original_path := f.original_path,
              new_path := resolveTarget w.fs f.original_path (effectiveNewName f),
              timestamp := "", metadata_source := f.source.getD "unknown",
              session_id := sid, metadata := f.metadata, undone := false } : LogEntry)]).length := by
        simp
      have hget2 := @List.getElem?_set_self LogEntry
        (w.log ++
          [({ original_path := f.original_path,
              new_path := resolveTarget w.fs f.original_path (effectiveNewName f),
              timestamp := "", metadata_source := f.source.getD "unknown",
              session_id := sid, metadata := f.metadata, undone := false } : LogEntry)])
        w.log.length
        ({ original_path := f.original_path,
           new_path := resolveTarget w.fs f.original_path (effectiveNewName f),
           timestamp := "", metadata_source := f.source.getD "unknown",
           session_id := sid, metadata := f.metadata, undone := true } : LogEntry)
        hlen
      rw [undo_single_already _ w.log.length _ hget2 rfl]

/-- Witness for C2: a genuine rename of "d/o.pdf" to "d/n.pdf" followed
by undo of the appended entry restores the original path, removes the
target, and a second undo fails with the already-undone error. -/
theorem undo_single_contract_witness :
    (undo_single (execute_renames stEmpty noSync wRound [itemRound] "s").1
      (wRound.log.length : Int)).2 = UndoResult.success itemRound.original_path ∧
    itemRound.original_path ∈
      (undo_single (execute_renames stEmpty noSync wRound [itemRound] "s").1
        (wRound.log.length : Int)).1.fs ∧
    resolveTarget wRound.fs itemRound.original_path (effectiveNewName itemRound) ∉
      (undo_single (execute_renames stEmpty noSync wRound [itemRound] "s").1
        (wRound.log.length : Int)).1.fs ∧
    (undo_single
      (undo_single (execute_renames stEmpty noSync wRound [itemRound] "s").1
        (wRound.log.length : Int)).1
      (wRound.log.length : Int)).2 = UndoResult.alreadyUndone :=
  undo_single_contract.2.2.2.2.2 stEmpty noSync wRound itemRound "s"
    (by decide) (by decide) (by decide)

/-- Counterexample for C2 as stated: renaming "d/a.pdf" to its own name
"a.pdf" is reported as a successful rename, yet undoing that journal
entry does not restore-and-succeed — it fails with the source-occupied
error because the original path is (still) occupied by the file
itself. -/
theorem undo_roundtrip_fails_on_self_rename :
    (execute_renames stEmpty noSync wSelf [itemSelf] "s").2 =
      [RenameResult.ok pSelf pSelf none] ∧
    (undo_single (execute_renames stEmpty noSync wSelf [itemSelf] "s").1 0).2 =
      UndoResult.sourceOccupied pSelf := by
  refine ⟨by decide, by decide⟩

/-- Helper: the session loop emits exactly one outcome per matching
snapshot entry, regardless of the world state or of any failures along
the way. -/
theorem undoSessionGo_length (sid : String) :
    ∀ (l : List (Nat × LogEntry)) (w : World) (acc : List UndoResult),
    (undoSessionGo sid l w acc).2.length =
      acc.length + l.countP (fun ie => decide (ie.2.session_id = sid ∧ ie.2.undone = false)) := by
  intro l
  induction l with
  | nil => intro w acc; simp [undoSessionGo]
  | cons ie rest ih =>
    intro w acc
    rw [undoSessionGo]
    by_cases hc : ie.2.session_id = sid ∧ ie.2.undone = false
    · rw [if_pos hc, ih]
      simp [List.countP_cons, hc]
      omega
    · rw [if_neg hc, ih]
      simp [List.countP_cons, hc]

/-- Helper: counting enumerated entries by the session predicate on the
entry equals counting the entries themselves. -/
theorem countP_enumFrom (sid : String) :
    ∀ (l : List LogEntry) (n : Nat),
    (l.enumFrom n).countP (fun ie => decide (ie.2.session_id = sid ∧ ie.2.undone = false)) =
      l.countP (fun e => decide (e.session_id = sid ∧ e.undone = false)) := by
  intro l
  induction l with
  | nil => intro n; rfl
  | cons e rest ih =>
    intro n
    rw [List.enumFrom_cons]
    rw [List.countP_cons, List.countP_cons, ih]

/-- Claim C9: undo_session applies undo_single to every entry of the
journal snapshot whose session matches and whose undone flag is false,
in journal order, collecting one outcome per matching entry — a failure
in the middle (here: the second entry's target file was deleted
externally) does not halt processing of the remaining entries. -/
theorem undo_session_all_attempted :
    (∀ (w : World) (sid : String),
      (undo_session w sid).2.length =
        w.log.countP (fun e => decide (e.session_id = sid ∧ e.undone = false))) ∧
    (undo_session wSession "s1").2 =
      [UndoResult.success o0, UndoResult.targetMissing t1, UndoResult.success o2] ∧
    (undo_session wSession "s1").1.fs = [o0, o2] := by
  refine ⟨?_, by decide, by decide⟩
  intro w sid
  unfold undo_session
  rw [undoSessionGo_length]
  simp only [List.length_nil, Nat.zero_add]
  exact countP_enumFrom sid w.log 0

/-- Witness for C4: the one-word query "alpha" fully overlaps the
result title "alpha", so the stored confidence is round2(1) = 1. -/
theorem crossref_confidence_rounded_overlap_witness :
    mAlpha.confidence = round2 (overlapFrac "alpha" itemAlpha) ∧
    |mAlpha.confidence - overlapFrac "alpha" itemAlpha| ≤ 1 / 200 := by
  have hov : overlapFrac "alpha" itemAlpha = 1 := by
    have h1 : ((pySplitWs (pyLower "alpha")).dedup.filter
        (fun word => word ∈ (pySplitWs (pyLower (parseCrossrefItem itemAlpha).title)).dedup)).length
          = 1 := by decide
    have h2 : (pySplitWs (pyLower "alpha")).dedup.length = 1 := by decide
    simp only [overlapFrac]
    rw [h1, h2]
    norm_num
  have hm : crossref_search_title "alpha" [itemAlpha] = some mAlpha := by
    rw [crossref_search_title_eq "alpha" itemAlpha [] (by decide) (by decide) (by decide)]
    rw [hov, round2_one]
    rfl
  exact crossref_confidence_rounded_overlap "alpha" itemAlpha [] mAlpha hm
    (by decide) (by decide) (by decide)

end PdfRenamer
